import Mathlib

/-!
Formal model of the scoring core of the "Semáforo Legislativo" system.

The development shallowly embeds the quantitative core of the repository:

* `src/config.py` — the `SCORING`, `URGENCIA` and `LAG_CONFIG` configuration tables;
* `src/api/correlacion.py` — color assignment, the legislative-calendar factor, the
  evidence-based urgency estimator, the weighted category score, and the persistence
  behaviour of the daily batch `calcular_todos_los_scores`;
* `src/api/lag.py` — the cross-correlation lag sweep and the Granger-test input guard.

Python floats are modelled as exact rationals (`ℚ`) where the code only performs
field operations, and as real numbers (`ℝ`) where square roots appear.  `round(x, d)`
is modelled as nearest-integer rounding at `d` decimals.  Reads from the sqlite store
and calls into the scraper modules (external signal providers) are passed in as
explicit arguments, and the numerical primitives of numpy/scipy that the code calls
(`np.linalg.lstsq`, `scipy.stats` distribution cdfs) are abstracted as function
parameters; everything the repository itself computes is translated directly.
-/

/-- The three traffic-light colors produced by the scoring engine. -/
inductive Color where
  | verde
  | amarillo
  | rojo
deriving DecidableEq

/-- `SCORING["pesos"]` from `src/config.py`: the weight vector of the composite score. -/
structure Pesos where
  media : ℚ
  trends : ℚ
  congreso : ℚ
  mananera : ℚ
  urgencia : ℚ

/-- `SCORING["pesos"]` reference values (config.py lines 432-438). -/
def SCORING_pesos : Pesos := ⟨0.25, 0.15, 0.30, 0.15, 0.15⟩

/-- `SCORING["umbrales"]["verde"]` (config.py line 440). -/
def SCORING_umbral_verde : ℚ := 70

/-- `SCORING["umbrales"]["amarillo"]` (config.py line 441). -/
def SCORING_umbral_amarillo : ℚ := 40

/-- `URGENCIA["periodo_ordinario"]` (config.py line 580). -/
def URGENCIA_periodo_ordinario : ℚ := 1.5

/-- `URGENCIA["receso"]` (config.py line 582). -/
def URGENCIA_receso : ℚ := 0.5

/-- `URGENCIA["periodos_ordinarios"]` (config.py lines 585-588): month-day windows
of the two ordinary legislative sessions, as `"%m-%d"` strings. -/
def URGENCIA_periodos_ordinarios : List (String × String) :=
  [("09-01", "12-15"), ("02-01", "04-30")]

/-- Python `round(x, 2)`: rounding to 2 decimals.  Modelled as nearest-integer
rounding of `100·x` (the half-to-even tie rule of Python floats differs from
`round`'s half-up rule only at exact ties, which none of the proved statements
depend on). -/
def pyRound2 (x : ℚ) : ℚ := (round (x * 100) : ℚ) / 100

/-- `asignar_color` (correlacion.py lines 177-184): traffic-light color from the
score thresholds. -/
def asignar_color (score : ℚ) : Color :=
  if score ≥ SCORING_umbral_verde then Color.verde
  else if score ≥ SCORING_umbral_amarillo then Color.amarillo
  else Color.rojo

/-- `calcular_factor_urgencia` (correlacion.py lines 64-82).  The ambient
`datetime.now().strftime("%m-%d")` is passed in as `mes_dia`.  Python's
lexicographic string comparison is the lexicographic order on the code-point
list `String.data`. -/
def calcular_factor_urgencia (mes_dia : String) : ℚ :=
  if URGENCIA_periodos_ordinarios.any
      (fun p => decide (p.1.data ≤ mes_dia.data) && decide (mes_dia.data ≤ p.2.data))
  then URGENCIA_periodo_ordinario
  else URGENCIA_receso

/-- One row of the `correlaciones` table as read by the urgency estimator
(correlacion.py lines 109-114): the latest cross-correlation record. -/
structure CorrRow where
  coeficiente : ℚ
  significativo : Bool

/-- The calendar subcomponent of the urgency score (correlacion.py lines 156-163):
`if factor_cal >= 1.5 and presion_real > 50: min(presion_real*0.8, 100)
elif factor_cal >= 1.0: min(presion_real*0.4, 50) else 0`. -/
def calendario_score (factor_cal presion_real : ℚ) : ℚ :=
  if factor_cal ≥ 1.5 ∧ presion_real > 50 then min (presion_real * 0.8) 100
  else if factor_cal ≥ 1.0 then min (presion_real * 0.4) 50
  else 0

/-- `calcular_score_urgencia_historica` (correlacion.py lines 85-174).  The three
sqlite reads are passed in explicitly: `corr_row` is the latest
`xcorr_medios_congreso` record (or `none`), `sil_reciente` and `sil_mes` are the
14-day and 60-day filing counts from `sil_documentos`, and `mes_dia` is the
ambient month-day used by `calcular_factor_urgencia`. -/
def calcular_score_urgencia_historica (corr_row : Option CorrRow)
    (sil_reciente sil_mes : ℕ) (mes_dia : String)
    (score_media score_trends : ℚ) : ℚ :=
  let corr_score : ℚ :=
    match corr_row with
    | some row =>
        if row.significativo then min (|row.coeficiente| * 150) 100
        else min (|row.coeficiente| * 50) 30
    | none => 0
  let sil_score : ℚ :=
    if (sil_mes : ℚ) > 0 then
      let promedio_quincenal : ℚ := (sil_mes : ℚ) / 4
      if promedio_quincenal > 0 then
        min (((sil_reciente : ℚ) / promedio_quincenal) * 40) 100
      else 0
    else 0
  let factor_cal := calcular_factor_urgencia mes_dia
  let presion_real := score_media * 0.6 + score_trends * 0.4
  let urgencia :=
    corr_score * 0.40 + sil_score * 0.40 + calendario_score factor_cal presion_real * 0.20
  min (pyRound2 urgencia) 100

/-- The weighted total of `calcular_score_categoria` (correlacion.py lines 213-222).
The five component scores come from external signal providers and the urgency
estimator, so they are parameters; the weight vector `pesos = SCORING["pesos"]`
is a parameter so that the reference weights are one instance. -/
def calcular_score_categoria_total (pesos : Pesos)
    (score_media score_trends score_congreso score_mananera score_urgencia : ℚ) : ℚ :=
  let score_total :=
    pesos.media * score_media
    + pesos.trends * score_trends
    + pesos.congreso * score_congreso
    + pesos.mananera * score_mananera
    + pesos.urgencia * score_urgencia
  min (pyRound2 score_total) 100

/-- The color of `calcular_score_categoria` (correlacion.py line 223). -/
def calcular_score_categoria_color (pesos : Pesos)
    (score_media score_trends score_congreso score_mananera score_urgencia : ℚ) : Color :=
  asignar_color (calcular_score_categoria_total pesos
    score_media score_trends score_congreso score_mananera score_urgencia)

/-- The per-category result dict built by `calcular_score_categoria`
(correlacion.py lines 225-237).  For the batch-level theorems the whole
per-category computation (external providers + urgency) is abstracted as a
function producing such a record. -/
structure Resultado where
  categoria : String
  nombre : String
  score_total : ℚ
  score_media : ℚ
  score_trends : ℚ
  score_congreso : ℚ
  score_mananera : ℚ
  score_urgencia : ℚ
  color : Color
  factor_calendario : ℚ
  fecha : String
deriving DecidableEq

/-- A row of the sqlite `scores` table, `UNIQUE(categoria, fecha)`
(correlacion.py lines 27-42).  The `detalle` column holds the string
`"cal:{factor}"`; it is kept as its numeric payload, which is all the row
equality depends on. -/
structure ScoreRow where
  categoria : String
  score_total : ℚ
  score_media : ℚ
  score_trends : ℚ
  score_congreso : ℚ
  score_mananera : ℚ
  score_urgencia : ℚ
  color : Color
  fecha : String
  detalle : ℚ
deriving DecidableEq

/-- A row of the append-only `alertas` table (correlacion.py lines 49-59).
The `mensaje` f-string is kept as its data: the category display name and the
score it interpolates. -/
structure AlertaRow where
  categoria : String
  tipo_alerta : String
  score : ℚ
  color : Color
  mensaje_nombre : String
  mensaje_score : ℚ
  fecha : String
deriving DecidableEq

/-- The persistent store touched by the scoring batch: the `scores` and
`alertas` tables, each as an ordered list of rows. -/
structure Store where
  scores : List ScoreRow
  alertas : List AlertaRow
deriving DecidableEq

/-- The `UNIQUE(categoria, fecha)` key of a `scores` row. -/
def scoreKey (q : ScoreRow) : String × String := (q.categoria, q.fecha)

/-- The `scores` row inserted for a result (correlacion.py lines 264-281). -/
def scoreRowOf (r : Resultado) : ScoreRow :=
  ⟨r.categoria, r.score_total, r.score_media, r.score_trends, r.score_congreso,
   r.score_mananera, r.score_urgencia, r.color, r.fecha, r.factor_calendario⟩

/-- The `alertas` row inserted for a green result (correlacion.py lines 305-316);
`now_iso` is the ambient `datetime.now().isoformat()`. -/
def alertaOf (now_iso : String) (r : Resultado) : AlertaRow :=
  ⟨r.categoria, "score_alto", r.score_total, r.color, r.nombre, r.score_total, now_iso⟩

/-- `INSERT INTO scores ...` with the `sqlite3.IntegrityError` fallback to
`UPDATE ... WHERE categoria=? AND fecha=?` (correlacion.py lines 263-301): a
uniqueness conflict on `(categoria, fecha)` turns the insert into an in-place
update of every row with that key. -/
def upsertScore (rows : List ScoreRow) (r : ScoreRow) : List ScoreRow :=
  if rows.any (fun q => decide (scoreKey q = scoreKey r)) then
    rows.map (fun q => if scoreKey q = scoreKey r then r else q)
  else rows ++ [r]

/-- One iteration of the category loop of `calcular_todos_los_scores`
(correlacion.py lines 258-316): upsert the score row, then append an alert row
when the color is green. -/
def stepScore (now_iso : String) (st : Store) (r : Resultado) : Store :=
  ⟨upsertScore st.scores (scoreRowOf r),
   if r.color = Color.verde then st.alertas ++ [alertaOf now_iso r] else st.alertas⟩

/-- The category loop of `calcular_todos_los_scores` (correlacion.py lines
249-323).  `res c` is the outcome of `calcular_score_categoria c`: `none` models
a raised exception (there is no handler in the loop, so the whole batch
aborts and — the final `conn.commit()` never being reached — nothing is
persisted), `some r` a computed result.  On success the accumulated results
are returned sorted by `score_total` descending (stable, like `list.sort`). -/
def calcular_todos_los_scores_go (res : String → Option Resultado) (now_iso : String) :
    List String → Store → List Resultado → Option (Store × List Resultado)
  | [], st, acc =>
      some (st, acc.mergeSort (fun a b => decide (b.score_total ≤ a.score_total)))
  | c :: rest, st, acc =>
      match res c with
      | none => none
      | some r =>
          calcular_todos_los_scores_go res now_iso rest
            (stepScore now_iso st r) (acc ++ [r])

/-- `calcular_todos_los_scores` (correlacion.py lines 249-323), starting from a
given store state. -/
def calcular_todos_los_scores (res : String → Option Resultado) (cats : List String)
    (now_iso : String) (st : Store) : Option (Store × List Resultado) :=
  calcular_todos_los_scores_go res now_iso cats st []

/-- One whole batch pass over the store when every provider succeeds:
specification-side restatement of the store effect of
`calcular_todos_los_scores` used to phrase the idempotence theorems. -/
def runStore (res : String → Resultado) (cats : List String) (now_iso : String)
    (st : Store) : Store :=
  cats.foldl (fun s c => stepScore now_iso s (res c)) st

/-- The alert rows one batch pass appends: one per green category, in category
order (specification-side description). -/
def nuevasAlertas (res : String → Resultado) (cats : List String)
    (now_iso : String) : List AlertaRow :=
  cats.filterMap (fun c =>
    if (res c).color = Color.verde then some (alertaOf now_iso (res c)) else none)

/-- `LAG_CONFIG["min_observaciones"]` (config.py line 484). -/
def LAG_CONFIG_min_observaciones : ℕ := 15

/-- `LAG_CONFIG["cross_correlation_lags"]` (config.py line 485). -/
def LAG_CONFIG_cross_correlation_lags : ℕ := 14

/-- `LAG_CONFIG["granger_max_lag"]` (config.py line 482). -/
def LAG_CONFIG_granger_max_lag : ℕ := 7

/-- `LAG_CONFIG["p_value_threshold"]` (config.py line 483). -/
noncomputable def LAG_CONFIG_p_value_threshold : ℝ := 0.05

/-- `np.mean` of a series (empty list gives the junk value 0/0 = 0). -/
noncomputable def npMean (l : List ℝ) : ℝ := l.sum / l.length

/-- The series centered by its mean. -/
noncomputable def centrar (l : List ℝ) : List ℝ := l.map (fun v => v - npMean l)

/-- Pointwise product sum of two series. -/
noncomputable def sumProd (a b : List ℝ) : ℝ := (List.zipWith (fun u v => u * v) a b).sum

/-- Population variance, `np.std(l)**2` with `ddof = 0`. -/
noncomputable def npVar (l : List ℝ) : ℝ := npMean (l.map (fun v => (v - npMean l) ^ 2))

/-- `np.std` (population). -/
noncomputable def npStd (l : List ℝ) : ℝ := Real.sqrt (npVar l)

/-- Pearson correlation `np.corrcoef(a, b)[0, 1]`, written with the common `1/n`
factors of covariance and standard deviations cancelled:
`Σa'b' / sqrt(Σa'² · Σb'²)` on the centered series.  numpy returns NaN when a
variance is zero and the caller replaces NaN by 0; here the zero-denominator
division yields the same 0 directly. -/
noncomputable def corrcoef (a b : List ℝ) : ℝ :=
  sumProd (centrar a) (centrar b) /
    Real.sqrt (sumProd (centrar a) (centrar a) * sumProd (centrar b) (centrar b))

/-- z-score normalization with the `1e-10` guard (lag.py lines 169-170). -/
noncomputable def zNorm (l : List ℝ) : List ℝ :=
  l.map (fun v => (v - npMean l) / (npStd l + 1e-10))

/-- Python `round(x, d)` over ℝ (same rounding model as `pyRound2`). -/
noncomputable def pyRoundR (d : ℕ) (x : ℝ) : ℝ := (round (x * 10 ^ d) : ℝ) / 10 ^ d

/-- One element of the `correlaciones` list built by `cross_correlation`
(lag.py lines 192-197). -/
structure XCorrEntry where
  lag : ℤ
  correlacion : ℝ
  p_value : ℝ
  significativo : Prop

/-- The lag-shifted Pearson correlation (lag.py lines 174-182): positive lag
correlates `x_norm[:n-lag]` with `y_norm[lag:]`, negative lag `x_norm[-lag:]`
with `y_norm[:n+lag]`, lag 0 the full series. -/
noncomputable def xcorrCorrAt (xn yn : List ℝ) (n : ℕ) (lag : ℤ) : ℝ :=
  if 0 < lag then corrcoef (xn.take (n - lag.toNat)) (yn.drop lag.toNat)
  else if lag < 0 then corrcoef (xn.drop (-lag).toNat) (yn.take (n - (-lag).toNat))
  else corrcoef xn yn

/-- One per-lag entry of `cross_correlation` (lag.py lines 174-197): the rounded
correlation, the two-sided Student-t significance test on the effective sample
size `n - |lag|`, and its threshold flag.  `tcdf` abstracts `scipy.stats.t.cdf`
at the given degrees of freedom. -/
noncomputable def xcorrEntry (tcdf : ℝ → ℕ → ℝ) (xn yn : List ℝ) (n : ℕ)
    (lag : ℤ) : XCorrEntry :=
  let corr := xcorrCorrAt xn yn n lag
  let n_eff := n - lag.natAbs
  let p_value : ℝ :=
    if 2 < n_eff then
      let t_stat := corr * Real.sqrt ((n_eff : ℝ) - 2) /
        Real.sqrt (1 - corr ^ 2 + 1e-10)
      2 * (1 - tcdf |t_stat| (n_eff - 2))
    else 1
  ⟨lag, pyRoundR 4 corr, pyRoundR 6 p_value, p_value < LAG_CONFIG_p_value_threshold⟩

/-- The swept lags `range(-max_lags, max_lags + 1)` (lag.py line 174), in
increasing order. -/
def xcorrLags (max_lags : ℕ) : List ℤ :=
  (List.range (2 * max_lags + 1)).map (fun (i : ℕ) => (i : ℤ) - (max_lags : ℤ))

/-- The `correlaciones` list of `cross_correlation` (lag.py lines 172-197). -/
noncomputable def xcorrEntries (tcdf : ℝ → ℕ → ℝ) (x y : List ℝ)
    (max_lags : ℕ) : List XCorrEntry :=
  (xcorrLags max_lags).map (xcorrEntry tcdf (zNorm x) (zNorm y) x.length)

open Classical in
/-- Python `max(lags_positivos, key=lambda c: abs(c["correlacion"]))`: a left
fold that replaces the current best only on a strict increase of the key, so
the first maximal element (lowest lag, the list being in lag order) wins. -/
noncomputable def pyMaxAbsCorr (h : XCorrEntry) (t : List XCorrEntry) : XCorrEntry :=
  t.foldl (fun best e => if |best.correlacion| < |e.correlacion| then e else best) h

/-- The optimal entry selection of `cross_correlation` (lag.py lines 199-204):
the maximal-|correlation| entry among strictly positive lags, or the default
`lag 0, correlation 0, p 1` when no positive lags were swept.  (The default
dict carries no significance flag; the placeholder `False` is never read.) -/
noncomputable def xcorrMejor (correlaciones : List XCorrEntry) : XCorrEntry :=
  match correlaciones.filter (fun c => decide (0 < c.lag)) with
  | [] => ⟨0, 0, 1, False⟩
  | h :: t => pyMaxAbsCorr h t

/-- The result dict of `cross_correlation` (lag.py lines 206-212).  The
`interpretacion` diagnostic string (lag.py line 211, built by `interpretar_lag`)
is presentation-only and never consumed downstream, and is omitted. -/
structure XCorrResult where
  correlaciones : List XCorrEntry
  lag_optimo : ℤ
  correlacion_maxima : ℝ
  p_value_optimo : ℝ

/-- `cross_correlation` either returns the insufficient-observations error dict
or a result. -/
inductive XCorrOutcome where
  | insuficientes
  | ok (r : XCorrResult)

/-- `cross_correlation` (lag.py lines 151-212).  `tcdf` abstracts
`scipy.stats.t.cdf` (value, degrees of freedom). -/
noncomputable def cross_correlation (tcdf : ℝ → ℕ → ℝ) (x y : List ℝ)
    (max_lags : ℕ) : XCorrOutcome :=
  if x.length < LAG_CONFIG_min_observaciones then XCorrOutcome.insuficientes
  else
    let correlaciones := xcorrEntries tcdf x y max_lags
    let mejor := xcorrMejor correlaciones
    XCorrOutcome.ok ⟨correlaciones, mejor.lag, mejor.correlacion, mejor.p_value⟩

/-- One per-lag Granger result (lag.py lines 133-138). -/
structure GrangerLagResultado where
  lag : ℕ
  f_statistic : ℝ
  p_value : ℝ
  significativo : Prop

/-- The dict returned by `granger_test`: either the insufficient-data error
(with an empty result list) or the sweep output (lag.py lines 91 and 144-148). -/
structure GrangerResultado where
  error : Option String
  max_lag_probado : Option ℕ
  n_observaciones : Option ℕ
  resultados : List GrangerLagResultado

/-- The body of the per-lag Granger loop (lag.py lines 95-142).  `ols`
abstracts the numpy regression block (matrix building + two `np.linalg.lstsq`
fits), returning the restricted and unrestricted residual sums of squares, or
`none` for a raised `LinAlgError`/`ValueError` (caught and skipped).  Degenerate
fits — zero unrestricted SSR or non-positive second degree of freedom
`df2 = (n - lag) - (1 + 2·lag)` — are skipped, not reported.  `fcdf` abstracts
`scipy.stats.f.cdf`. -/
noncomputable def grangerPorLag (ols : List ℝ → List ℝ → ℕ → Option (ℝ × ℝ))
    (fcdf : ℝ → ℕ → ℤ → ℝ) (x y : List ℝ) (n : ℕ) (lag : ℕ) :
    Option GrangerLagResultado :=
  match ols x y lag with
  | none => none
  | some ssr =>
      let ssr_r := ssr.1
      let ssr_nr := ssr.2
      let n_obs : ℕ := n - lag
      let df1 : ℕ := lag
      let df2 : ℤ := (n_obs : ℤ) - (1 + 2 * (lag : ℤ))
      if ssr_nr = 0 ∨ df2 ≤ 0 then none
      else
        let f_stat := ((ssr_r - ssr_nr) / (df1 : ℝ)) / (ssr_nr / (df2 : ℝ))
        let p_value := 1 - fcdf f_stat df1 df2
        some ⟨lag, pyRoundR 4 f_stat, pyRoundR 6 p_value,
          p_value < LAG_CONFIG_p_value_threshold⟩

/-- `granger_test` (lag.py lines 74-148): the guard
`n < max_lag + LAG_CONFIG["min_observaciones"]` (with `n = len(y)`) returns the
explicit insufficient-observations dict with an empty result list; otherwise the
sweep runs lags `1..max_lag`, skipping degenerate lags.  The model is a total
function: no exception escapes. -/
noncomputable def granger_test (ols : List ℝ → List ℝ → ℕ → Option (ℝ × ℝ))
    (fcdf : ℝ → ℕ → ℤ → ℝ) (x y : List ℝ) (max_lag : ℕ) : GrangerResultado :=
  if y.length < max_lag + LAG_CONFIG_min_observaciones then
    ⟨some "Insuficientes observaciones", none, none, []⟩
  else
    ⟨none, some max_lag, some y.length,
     (List.range max_lag).filterMap
       (fun i => grangerPorLag ols fcdf x y y.length (i + 1))⟩

/-- The `lag_optimo` field of a `cross_correlation` outcome, `none` on the
insufficient-data error. -/
def xcorrLagOpt : XCorrOutcome → Option ℤ
  | XCorrOutcome.insuficientes => none
  | XCorrOutcome.ok r => some r.lag_optimo

/-- A constant stand-in for the scipy t-distribution cdf, used to instantiate
`cross_correlation` at concrete inputs (none of the stated selection properties
depend on the cdf values). -/
noncomputable def tcdf0 : ℝ → ℕ → ℝ := fun _ _ => 0

/-- A constant stand-in for the numpy OLS primitive at concrete inputs. -/
def ols0 : List ℝ → List ℝ → ℕ → Option (ℝ × ℝ) := fun _ _ _ => none

/-- A constant stand-in for the scipy F-distribution cdf at concrete inputs. -/
noncomputable def fcdf0 : ℝ → ℕ → ℤ → ℝ := fun _ _ _ => 0

/-- A concrete 16-day series with nonzero variance, used as input for the
self-correlation claim. -/
noncomputable def serieSelf : List ℝ := [1, 0, 0, 0, 0, 0, 0, 0, 0, 0, 0, 0, 0, 0, 0, 0]

/-- A concrete provider outcome in which every category scores yellow (no alert
row is generated), used in the idempotence witness. -/
def resAmarillo : String → Resultado :=
  fun c => ⟨c, "categoria de prueba", 50, 50, 50, 50, 50, 50, Color.amarillo, 1, "2026-02-14"⟩

/-- A concrete provider outcome in which every category scores green (an alert
row is generated on every run), used in the alert-duplication counterexample. -/
def resVerde : String → Resultado :=
  fun c => ⟨c, "categoria de prueba", 80, 80, 80, 80, 80, 80, Color.verde, 1, "2026-02-14"⟩

/-- A concrete provider where category "a" raises (no handler exists in the batch
loop) while category "b" would compute a green result. -/
def resFalla : String → Option Resultado :=
  fun c => if c = "a" then none else some (resVerde c)

/-- Rounding to two decimals preserves nonnegativity. -/
theorem pyRound2_nonneg {x : ℚ} (hx : 0 ≤ x) : 0 ≤ pyRound2 x := by
  unfold pyRound2
  have h1 : (0 : ℤ) ≤ round (x * 100) := by
    rw [round_eq]
    exact Int.le_floor.mpr (by push_cast; linarith)
  positivity

/-- Rounding to two decimals preserves the upper bound 100. -/
theorem pyRound2_le_100 {x : ℚ} (hx : x ≤ 100) : pyRound2 x ≤ 100 := by
  unfold pyRound2
  have h1 : round (x * 100) ≤ 10000 := by
    rw [round_eq]
    have hmono : ⌊x * 100 + 1 / 2⌋ ≤ ⌊(10000 : ℚ) + 1 / 2⌋ := Int.floor_mono (by linarith)
    have hval : ⌊(10000 : ℚ) + 1 / 2⌋ = 10000 := by norm_num
    omega
  rw [div_le_iff₀ (by norm_num : (0 : ℚ) < 100)]
  calc (round (x * 100) : ℚ) ≤ (10000 : ℚ) := by exact_mod_cast h1
    _ = 100 * 100 := by norm_num

/-- Scores of at least 70 are classified green. -/
theorem asignar_color_verde {s : ℚ} (h : 70 ≤ s) : asignar_color s = Color.verde := by
  unfold asignar_color SCORING_umbral_verde
  rw [if_pos h]

/-- Scores in [40, 70) are classified yellow. -/
theorem asignar_color_amarillo {s : ℚ} (h40 : 40 ≤ s) (h70 : s < 70) :
    asignar_color s = Color.amarillo := by
  unfold asignar_color SCORING_umbral_verde SCORING_umbral_amarillo
  rw [if_neg (by linarith), if_pos h40]

/-- Scores below 40 are classified red. -/
theorem asignar_color_rojo {s : ℚ} (h : s < 40) : asignar_color s = Color.rojo := by
  unfold asignar_color SCORING_umbral_verde SCORING_umbral_amarillo
  rw [if_neg (by linarith), if_neg (by linarith)]

/-- Claim C1: for every weight vector with nonnegative entries summing to 1 and
component scores each in [0, 100], the total produced by `calcular_score_categoria`
lies in [0, 100]; the derived color matches the fixed thresholds (≥ 70 green,
[40, 70) yellow, < 40 red); and the thresholds are exact at the boundaries:
70 is green, 69.99 is yellow, 40 is yellow, 39.99 is red. -/
theorem score_total_in_range_and_color_thresholds (p : Pesos) (m t c ma u : ℚ)
    (hpm : 0 ≤ p.media) (hpt : 0 ≤ p.trends) (hpc : 0 ≤ p.congreso)
    (hpma : 0 ≤ p.mananera) (hpu : 0 ≤ p.urgencia)
    (hsum : p.media + p.trends + p.congreso + p.mananera + p.urgencia = 1)
    (hm : 0 ≤ m ∧ m ≤ 100) (ht : 0 ≤ t ∧ t ≤ 100) (hc : 0 ≤ c ∧ c ≤ 100)
    (hma : 0 ≤ ma ∧ ma ≤ 100) (hu : 0 ≤ u ∧ u ≤ 100) :
    (0 ≤ calcular_score_categoria_total p m t c ma u ∧
      calcular_score_categoria_total p m t c ma u ≤ 100) ∧
    (70 ≤ calcular_score_categoria_total p m t c ma u →
      calcular_score_categoria_color p m t c ma u = Color.verde) ∧
    (40 ≤ calcular_score_categoria_total p m t c ma u ∧
        calcular_score_categoria_total p m t c ma u < 70 →
      calcular_score_categoria_color p m t c ma u = Color.amarillo) ∧
    (calcular_score_categoria_total p m t c ma u < 40 →
      calcular_score_categoria_color p m t c ma u = Color.rojo) ∧
    asignar_color 70 = Color.verde ∧ asignar_color 69.99 = Color.amarillo ∧
    asignar_color 40 = Color.amarillo ∧ asignar_color 39.99 = Color.rojo := by
  have hraw0 : 0 ≤ p.media * m + p.trends * t + p.congreso * c
      + p.mananera * ma + p.urgencia * u := by
    have b1 := mul_nonneg hpm hm.1
    have b2 := mul_nonneg hpt ht.1
    have b3 := mul_nonneg hpc hc.1
    have b4 := mul_nonneg hpma hma.1
    have b5 := mul_nonneg hpu hu.1
    linarith
  have hraw100 : p.media * m + p.trends * t + p.congreso * c
      + p.mananera * ma + p.urgencia * u ≤ 100 := by
    have b1 := mul_le_mul_of_nonneg_left hm.2 hpm
    have b2 := mul_le_mul_of_nonneg_left ht.2 hpt
    have b3 := mul_le_mul_of_nonneg_left hc.2 hpc
    have b4 := mul_le_mul_of_nonneg_left hma.2 hpma
    have b5 := mul_le_mul_of_nonneg_left hu.2 hpu
    nlinarith
  have htot0 : 0 ≤ calcular_score_categoria_total p m t c ma u := by
    unfold calcular_score_categoria_total
    exact le_min (pyRound2_nonneg hraw0) (by norm_num)
  have htot100 : calcular_score_categoria_total p m t c ma u ≤ 100 := by
    unfold calcular_score_categoria_total
    exact min_le_right _ _
  refine ⟨⟨htot0, htot100⟩, ?_, ?_, ?_, ?_, ?_, ?_, ?_⟩
  · intro h70
    unfold calcular_score_categoria_color
    exact asignar_color_verde h70
  · intro h4070
    unfold calcular_score_categoria_color
    exact asignar_color_amarillo h4070.1 h4070.2
  · intro h40
    unfold calcular_score_categoria_color
    exact asignar_color_rojo h40
  · exact asignar_color_verde (by norm_num)
  · exact asignar_color_amarillo (by norm_num) (by norm_num)
  · exact asignar_color_amarillo (by norm_num) (by norm_num)
  · exact asignar_color_rojo (by norm_num)

/-- Claim C1 witness: the theorem applied to the configured reference weights and
concrete in-range component scores. -/
theorem score_total_in_range_and_color_thresholds_witness :
    0 ≤ calcular_score_categoria_total SCORING_pesos 80 60 50 0 30 ∧
    calcular_score_categoria_total SCORING_pesos 80 60 50 0 30 ≤ 100 :=
  (score_total_in_range_and_color_thresholds SCORING_pesos 80 60 50 0 30
    (by norm_num [SCORING_pesos]) (by norm_num [SCORING_pesos])
    (by norm_num [SCORING_pesos]) (by norm_num [SCORING_pesos])
    (by norm_num [SCORING_pesos]) (by norm_num [SCORING_pesos])
    (by norm_num) (by norm_num) (by norm_num) (by norm_num) (by norm_num)).1

/-- Claim C3: with the configured reference weights (media 0.25, trends 0.15,
congreso 0.30, mañanera 0.15, urgencia 0.15) and component scores media = 80,
trends = 60, congreso = 50, mañanera = 0, urgencia = 30, the total is
0.25·80 + 0.15·60 + 0.30·50 + 0.15·0 + 0.15·30 = 48.5 and the color is yellow. -/
theorem score_categoria_reference_scenario :
    calcular_score_categoria_total SCORING_pesos 80 60 50 0 30 = 48.5 ∧
    calcular_score_categoria_color SCORING_pesos 80 60 50 0 30 = Color.amarillo := by
  have htot : calcular_score_categoria_total SCORING_pesos 80 60 50 0 30 = 48.5 := by
    unfold calcular_score_categoria_total SCORING_pesos pyRound2
    norm_num [round_eq, min_def]
  refine ⟨htot, ?_⟩
  unfold calcular_score_categoria_color
  rw [htot]
  exact asignar_color_amarillo (by norm_num) (by norm_num)

/-- Claim C10: `calcular_factor_urgencia` returns exactly one of two values — the
ordinary-period factor 1.5, precisely when the month-day falls inside a configured
ordinary window, and the recess factor 0.5 otherwise.  The transitional ~1.0
multiplier mentioned by the spec is never produced: whenever the factor is ≥ 1.0
it is exactly 1.5, so the `factor_cal >= 1.0` branch of the calendar subcomponent
is only ever reached with multiplier 1.5. -/
theorem factor_urgencia_two_values (mes_dia : String) :
    (calcular_factor_urgencia mes_dia = URGENCIA_periodo_ordinario ∨
     calcular_factor_urgencia mes_dia = URGENCIA_receso) ∧
    (1 ≤ calcular_factor_urgencia mes_dia →
      calcular_factor_urgencia mes_dia = URGENCIA_periodo_ordinario) ∧
    (calcular_factor_urgencia mes_dia = URGENCIA_periodo_ordinario ↔
      URGENCIA_periodos_ordinarios.any
        (fun p => decide (p.1.data ≤ mes_dia.data) &&
          decide (mes_dia.data ≤ p.2.data)) = true) := by
  unfold calcular_factor_urgencia
  split
  · refine ⟨Or.inl rfl, fun _ => rfl, ?_⟩
    simp_all
  · rename_i h
    refine ⟨Or.inr rfl, fun hle => ?_, ?_⟩
    · exfalso
      norm_num [URGENCIA_receso] at hle
    · constructor
      · intro hv
        norm_num [URGENCIA_receso, URGENCIA_periodo_ordinario] at hv
      · intro hv
        simp [hv] at h

/-- Claim C10 witness: the theorem applied at the concrete recess date "01-15". -/
theorem factor_urgencia_two_values_witness :
    calcular_factor_urgencia "01-15" = URGENCIA_periodo_ordinario ∨
    calcular_factor_urgencia "01-15" = URGENCIA_receso :=
  (factor_urgencia_two_values "01-15").1

/-- In recess (factor 0.5) the calendar subcomponent is always 0. -/
theorem calendario_score_receso (p : ℚ) : calendario_score 0.5 p = 0 := by
  unfold calendario_score
  rw [if_neg, if_neg]
  · norm_num
  · rintro ⟨h1, -⟩
    norm_num at h1

/-- Claim C4 counterexample: with the ordinary-session multiplier 1.5 and pressure
40 (not above 50), the claim asserts the calendar subcomponent is 0, but the code
falls through to the `factor_cal >= 1.0` branch (which carries no pressure gate)
and returns min(40·0.4, 50) = 16. -/
theorem calendario_score_pressure_gate_counterexample :
    calendario_score 1.5 40 = 16 ∧ ¬ (40 : ℚ) > 50 ∧ calendario_score 1.5 40 ≠ 0 := by
  have h : calendario_score 1.5 40 = 16 := by
    unfold calendario_score
    rw [if_neg, if_pos]
    · norm_num [min_def]
    · norm_num
    · rintro ⟨-, h2⟩
      norm_num at h2
  exact ⟨h, by norm_num, by rw [h]; norm_num⟩

/-- Claim C4 (amended): the calendar subcomponent is nonzero only if the multiplier
is ≥ 1.0 and the pressure 0.6·media + 0.4·trends is positive (not necessarily above
50); it equals min(pressure·0.8, 100) when multiplier ≥ 1.5 and pressure > 50,
min(pressure·0.4, 50) in every other case with multiplier ≥ 1.0 — including
multiplier ≥ 1.5 with pressure ≤ 50, where the claim wrongly demanded 0 — and 0
when the multiplier is below 1.0. -/
theorem calendario_score_cases (f m t : ℚ) (hm : 0 ≤ m) (ht : 0 ≤ t) :
    (calendario_score f (m * 0.6 + t * 0.4) ≠ 0 → 1 ≤ f ∧ 0 < m * 0.6 + t * 0.4) ∧
    (1.5 ≤ f ∧ 50 < m * 0.6 + t * 0.4 →
      calendario_score f (m * 0.6 + t * 0.4) = min ((m * 0.6 + t * 0.4) * 0.8) 100) ∧
    (1 ≤ f ∧ ¬ (1.5 ≤ f ∧ 50 < m * 0.6 + t * 0.4) →
      calendario_score f (m * 0.6 + t * 0.4) = min ((m * 0.6 + t * 0.4) * 0.4) 50) ∧
    (f < 1 → calendario_score f (m * 0.6 + t * 0.4) = 0) := by
  have hp : 0 ≤ m * 0.6 + t * 0.4 := by positivity
  unfold calendario_score
  split
  · rename_i h1
    refine ⟨fun _ => ⟨by linarith [h1.1], by linarith [h1.2]⟩, fun _ => rfl,
      fun h2 => absurd ⟨h1.1, h1.2⟩ h2.2, fun h3 => ?_⟩
    exfalso
    linarith [h1.1]
  · rename_i h1
    split
    · rename_i h2
      norm_num at h2
      refine ⟨fun hne => ⟨h2, ?_⟩, fun hcon => absurd hcon h1, fun _ => rfl,
        fun h3 => ?_⟩
      · rcases lt_or_eq_of_le hp with hlt | heq
        · exact hlt
        · exfalso
          apply hne
          rw [← heq]
          norm_num
      · exfalso
        linarith
    · rename_i h2
      norm_num at h2
      refine ⟨fun hne => absurd rfl hne, fun hcon => ?_, fun hcon => ?_, fun _ => rfl⟩
      · exfalso
        linarith [hcon.1]
      · exfalso
        linarith [hcon.1]

/-- Claim C4 witness: the amended theorem applied with multiplier 1.5, media 80 and
trends 60 (pressure 72 > 50), yielding the strong branch value min(72·0.8, 100). -/
theorem calendario_score_cases_witness :
    calendario_score 1.5 (80 * 0.6 + 60 * 0.4) = min ((80 * 0.6 + 60 * 0.4) * 0.8) 100 :=
  (calendario_score_cases 1.5 80 60 (by norm_num) (by norm_num)).2.1
    ⟨by norm_num, by norm_num⟩

/-- The filing-velocity subcomponent vanishes when either window count is zero. -/
theorem sil_score_zero (sr sm : ℕ) (h : sr = 0 ∨ sm = 0) :
    (if (sm : ℚ) > 0 then
      if ((sm : ℚ) / 4) > 0 then min (((sr : ℚ) / ((sm : ℚ) / 4)) * 40) 100 else (0 : ℚ)
    else 0) = 0 := by
  rcases h with rfl | rfl
  · split
    · split
      · norm_num [min_def]
      · rfl
    · rfl
  · norm_num

/-- Claim C2 (amended): the urgency score is 0 whenever the evidence is absent in
the strict sense the code requires — the latest correlation record is absent or
has coefficient 0 (a present non-significant record with nonzero coefficient
still contributes min(|r|·50, 30)), there is no filing activity in one of the two
windows (a positive acceleration ≤ 1.0 still contributes acceleration·40), and
the calendar is in recess.  Calendar timing alone still asserts no urgency. -/
theorem urgencia_zero_without_evidence (corr_row : Option CorrRow)
    (sil_reciente sil_mes : ℕ) (mes_dia : String) (score_media score_trends : ℚ)
    (hcorr : corr_row = none ∨ ∃ row, corr_row = some row ∧ row.coeficiente = 0)
    (hsil : sil_reciente = 0 ∨ sil_mes = 0)
    (hcal : calcular_factor_urgencia mes_dia = URGENCIA_receso) :
    calcular_score_urgencia_historica corr_row sil_reciente sil_mes mes_dia
      score_media score_trends = 0 := by
  have hcal5 : calcular_factor_urgencia mes_dia = 0.5 := by
    rw [hcal]
    norm_num [URGENCIA_receso]
  rcases hcorr with rfl | ⟨row, rfl, hco⟩
  · simp only [calcular_score_urgencia_historica, hcal5, calendario_score_receso]
    rw [sil_score_zero sil_reciente sil_mes hsil]
    norm_num [pyRound2, round_eq, min_def]
  · simp only [calcular_score_urgencia_historica, hcal5, calendario_score_receso, hco,
      abs_zero, zero_mul]
    rw [sil_score_zero sil_reciente sil_mes hsil]
    split <;> norm_num [pyRound2, round_eq, min_def]

/-- Claim C2 witness: the amended theorem applied to the no-evidence inputs — no
correlation record, zero filings, the recess date "01-15", media 50, trends 50. -/
theorem urgencia_zero_without_evidence_witness :
    calcular_score_urgencia_historica none 0 0 "01-15" 50 50 = 0 := by
  have hany : (URGENCIA_periodos_ordinarios.any
      (fun p => decide (p.1.data ≤ ("01-15" : String).data) &&
        decide (("01-15" : String).data ≤ p.2.data))) = false := by
    decide
  exact urgencia_zero_without_evidence none 0 0 "01-15" 50 50 (Or.inl rfl)
    (Or.inl rfl) (by simp [calcular_factor_urgencia, hany])

/-- Claim C2 counterexample: on the recess date "01-15" with no correlation record,
1 filing in the last 14 days and 4 in the last 60 (so the acceleration is exactly
1/(4/4) = 1.0, not above 1.0), the claim asserts urgency 0, but the code scores the
filing-velocity component min(1.0·40, 100) = 40 and returns 0.40·40 = 16. -/
theorem urgencia_zero_claim_counterexample :
    calcular_factor_urgencia "01-15" = URGENCIA_receso ∧
    (1 : ℚ) / ((4 : ℚ) / 4) ≤ 1 ∧
    calcular_score_urgencia_historica none 1 4 "01-15" 0 0 = 16 := by
  have hany : (URGENCIA_periodos_ordinarios.any
      (fun p => decide (p.1.data ≤ ("01-15" : String).data) &&
        decide (("01-15" : String).data ≤ p.2.data))) = false := by
    decide
  have hcal : calcular_factor_urgencia "01-15" = URGENCIA_receso := by
    simp [calcular_factor_urgencia, hany]
  have hcal5 : calcular_factor_urgencia "01-15" = 0.5 := by
    rw [hcal]
    norm_num [URGENCIA_receso]
  refine ⟨hcal, by norm_num, ?_⟩
  simp only [calcular_score_urgencia_historica, hcal5, calendario_score_receso]
  norm_num [pyRound2, round_eq, min_def]

/-- The conflict-update never changes key columns and the insert adds a fresh key,
so an upsert preserves key uniqueness of the scores table. -/
theorem upsertScore_keys_nodup {rows : List ScoreRow} {r : ScoreRow}
    (h : (rows.map scoreKey).Nodup) : ((upsertScore rows r).map scoreKey).Nodup := by
  unfold upsertScore
  split
  · have heq : (rows.map (fun q => if scoreKey q = scoreKey r then r else q)).map scoreKey
        = rows.map scoreKey := by
      rw [List.map_map]
      refine List.map_congr_left ?_
      intro q _
      by_cases hk : scoreKey q = scoreKey r
      · simp [hk]
      · simp [hk]
    rw [heq]
    exact h
  · rename_i hany
    rw [List.map_append]
    refine List.Nodup.append h (by simp) ?_
    intro k hk1 hk2
    simp only [List.map_cons, List.map_nil, List.mem_singleton] at hk2
    subst hk2
    rcases List.mem_map.mp hk1 with ⟨q, hq, hkq⟩
    exact hany (List.any_eq_true.mpr ⟨q, hq, by simp [hkq]⟩)

/-- After an upsert of `r`, some row carries `r`'s key, and every row carrying it
is exactly `r`. -/
theorem upsertScore_establishes (rows : List ScoreRow) (r : ScoreRow) :
    (∃ q ∈ upsertScore rows r, scoreKey q = scoreKey r) ∧
    (∀ q ∈ upsertScore rows r, scoreKey q = scoreKey r → q = r) := by
  unfold upsertScore
  split
  · rename_i hany
    rcases List.any_eq_true.mp hany with ⟨q0, hq0, hk0⟩
    have hk0q : scoreKey q0 = scoreKey r := by simpa using hk0
    constructor
    · exact ⟨r, List.mem_map.mpr ⟨q0, hq0, by simp [hk0q]⟩, rfl⟩
    · intro q hq hkq
      rcases List.mem_map.mp hq with ⟨q1, hq1, hq1e⟩
      by_cases hk1 : scoreKey q1 = scoreKey r
      · rw [if_pos hk1] at hq1e
        exact hq1e.symm
      · rw [if_neg hk1] at hq1e
        subst hq1e
        exact absurd hkq hk1
  · rename_i hany
    constructor
    · exact ⟨r, by simp, rfl⟩
    · intro q hq hkq
      rcases List.mem_append.mp hq with hql | hqr
      · exact absurd (List.any_eq_true.mpr ⟨q, hql, by simp [hkq]⟩) hany
      · simpa using hqr

/-- Upserting a row with a different key — or the very same row again — keeps `r`
present at its key and unique there. -/
theorem upsertScore_preserves (rows : List ScoreRow) (r' r : ScoreRow)
    (hkey : scoreKey r' ≠ scoreKey r ∨ r' = r)
    (h1 : ∃ q ∈ rows, scoreKey q = scoreKey r)
    (h2 : ∀ q ∈ rows, scoreKey q = scoreKey r → q = r) :
    (∃ q ∈ upsertScore rows r', scoreKey q = scoreKey r) ∧
    (∀ q ∈ upsertScore rows r', scoreKey q = scoreKey r → q = r) := by
  rcases hkey with hne | rfl
  · unfold upsertScore
    split
    · constructor
      · rcases h1 with ⟨q0, hq0, hk0⟩
        refine ⟨if scoreKey q0 = scoreKey r' then r' else q0,
          List.mem_map.mpr ⟨q0, hq0, rfl⟩, ?_⟩
        rw [if_neg]
        · exact hk0
        · intro hc
          exact hne (by rw [← hc, hk0])
      · intro q hq hkq
        rcases List.mem_map.mp hq with ⟨q1, hq1, hq1e⟩
        by_cases hk1 : scoreKey q1 = scoreKey r'
        · rw [if_pos hk1] at hq1e
          subst hq1e
          exact absurd hkq hne
        · rw [if_neg hk1] at hq1e
          subst hq1e
          exact h2 q1 hq1 hkq
    · constructor
      · rcases h1 with ⟨q0, hq0, hk0⟩
        exact ⟨q0, List.mem_append.mpr (Or.inl hq0), hk0⟩
      · intro q hq hkq
        rcases List.mem_append.mp hq with hql | hqr
        · exact h2 q hql hkq
        · simp only [List.mem_singleton] at hqr
          subst hqr
          exact absurd hkq hne
  · exact upsertScore_establishes rows r'

/-- An upsert of `r` into a table already holding exactly `r` at its key is a
no-op: the conflict fires and the update rewrites identical values. -/
theorem upsertScore_noop (rows : List ScoreRow) (r : ScoreRow)
    (h1 : ∃ q ∈ rows, scoreKey q = scoreKey r)
    (h2 : ∀ q ∈ rows, scoreKey q = scoreKey r → q = r) :
    upsertScore rows r = rows := by
  rcases h1 with ⟨q0, hq0, hk0⟩
  unfold upsertScore
  rw [if_pos (List.any_eq_true.mpr ⟨q0, hq0, by simp [hk0]⟩)]
  have hid : ∀ q ∈ rows, (if scoreKey q = scoreKey r then r else q) = q := by
    intro q hq
    by_cases hk : scoreKey q = scoreKey r
    · rw [if_pos hk, h2 q hq hk]
    · rw [if_neg hk]
  calc rows.map (fun q => if scoreKey q = scoreKey r then r else q)
      = rows.map id := List.map_congr_left (by intro a ha; simpa using hid a ha)
    _ = rows := List.map_id rows

/-- Further upserts with other keys (or identical rows) preserve the established
key facts. -/
theorem foldl_upsert_preserves (rs : List ScoreRow) (r : ScoreRow) :
    ∀ L : List ScoreRow,
    (∀ r' ∈ rs, scoreKey r' ≠ scoreKey r ∨ r' = r) →
    ((∃ q ∈ L, scoreKey q = scoreKey r) ∧ (∀ q ∈ L, scoreKey q = scoreKey r → q = r)) →
    ((∃ q ∈ rs.foldl upsertScore L, scoreKey q = scoreKey r) ∧
     (∀ q ∈ rs.foldl upsertScore L, scoreKey q = scoreKey r → q = r)) := by
  induction rs with
  | nil =>
      intro L _ h
      simpa using h
  | cons r0 rest ih =>
      intro L hks h
      simp only [List.foldl_cons]
      exact ih (upsertScore L r0) (fun r' h' => hks r' (by simp [h']))
        (upsertScore_preserves L r0 r (hks r0 (by simp)) h.1 h.2)

/-- After one batch pass over a key-functional row list, every row sits at its key
and is the unique row there. -/
theorem foldl_upsert_establishes (rs : List ScoreRow) :
    ∀ L : List ScoreRow,
    (∀ r1 ∈ rs, ∀ r2 ∈ rs, scoreKey r1 = scoreKey r2 → r1 = r2) →
    ∀ r ∈ rs,
    ((∃ q ∈ rs.foldl upsertScore L, scoreKey q = scoreKey r) ∧
     (∀ q ∈ rs.foldl upsertScore L, scoreKey q = scoreKey r → q = r)) := by
  induction rs with
  | nil =>
      intro L _ r hr
      simp at hr
  | cons r0 rest ih =>
      intro L hfun r hr
      simp only [List.foldl_cons]
      rcases List.mem_cons.mp hr with rfl | hmr
      · refine foldl_upsert_preserves rest r (upsertScore L r) ?_
          (upsertScore_establishes L r)
        intro r' h'
        by_cases hk : scoreKey r' = scoreKey r
        · exact Or.inr (hfun r' (by simp [h']) r (by simp) hk)
        · exact Or.inl hk
      · exact ih (upsertScore L r0)
          (fun a ha b hb => hfun a (by simp [ha]) b (by simp [hb])) r hmr

/-- A second identical pass of upserts is a no-op on the scores table. -/
theorem foldl_upsert_noop (rs : List ScoreRow) :
    ∀ L : List ScoreRow,
    (∀ r ∈ rs, (∃ q ∈ L, scoreKey q = scoreKey r) ∧
      (∀ q ∈ L, scoreKey q = scoreKey r → q = r)) →
    rs.foldl upsertScore L = L := by
  induction rs with
  | nil =>
      intro L _
      rfl
  | cons r0 rest ih =>
      intro L h
      simp only [List.foldl_cons]
      rw [upsertScore_noop L r0 (h r0 (by simp)).1 (h r0 (by simp)).2]
      exact ih L (fun r hr => h r (by simp [hr]))

/-- Key uniqueness of the scores table is preserved along a batch pass. -/
theorem foldl_upsert_nodup (rs : List ScoreRow) :
    ∀ L : List ScoreRow, (L.map scoreKey).Nodup →
    ((rs.foldl upsertScore L).map scoreKey).Nodup := by
  induction rs with
  | nil =>
      intro L h
      simpa using h
  | cons r0 rest ih =>
      intro L h
      exact ih (upsertScore L r0) (upsertScore_keys_nodup h)

/-- The scores-table effect of one batch pass is the fold of the per-category
upserts. -/
theorem runStore_scores (res : String → Resultado) (cats : List String)
    (now_iso : String) :
    ∀ st : Store, (runStore res cats now_iso st).scores =
      (cats.map (fun c => scoreRowOf (res c))).foldl upsertScore st.scores := by
  induction cats with
  | nil =>
      intro st
      rfl
  | cons c rest ih =>
      intro st
      show (runStore res rest now_iso (stepScore now_iso st (res c))).scores = _
      rw [ih]
      rfl

/-- The alerts-table effect of one batch pass: the green alert rows are appended,
in category order. -/
theorem runStore_alertas (res : String → Resultado) (cats : List String)
    (now_iso : String) :
    ∀ st : Store, (runStore res cats now_iso st).alertas =
      st.alertas ++ nuevasAlertas res cats now_iso := by
  induction cats with
  | nil =>
      intro st
      simp [runStore, nuevasAlertas]
  | cons c rest ih =>
      intro st
      show (runStore res rest now_iso (stepScore now_iso st (res c))).alertas = _
      rw [ih]
      by_cases hv : (res c).color = Color.verde
      · simp [stepScore, nuevasAlertas, hv, List.filterMap_cons]
      · simp [stepScore, nuevasAlertas, hv, List.filterMap_cons]

/-- With every provider succeeding, the batch loop runs to completion, applies one
pass to the store, and returns the results sorted by total descending. -/
theorem calcular_todos_go_total (res : String → Resultado) (now_iso : String)
    (cats : List String) :
    ∀ (st : Store) (acc : List Resultado),
    calcular_todos_los_scores_go (fun c => some (res c)) now_iso cats st acc =
      some (runStore res cats now_iso st,
        (acc ++ cats.map res).mergeSort (fun a b => decide (b.score_total ≤ a.score_total))) := by
  induction cats with
  | nil =>
      intro st acc
      simp [calcular_todos_los_scores_go, runStore]
  | cons c rest ih =>
      intro st acc
      show calcular_todos_los_scores_go (fun c => some (res c)) now_iso rest
        (stepScore now_iso st (res c)) (acc ++ [res c]) = _
      rw [ih]
      simp [runStore]

/-- `calcular_todos_los_scores` with all providers succeeding. -/
theorem calcular_todos_total (res : String → Resultado) (cats : List String)
    (now_iso : String) (st : Store) :
    calcular_todos_los_scores (fun c => some (res c)) cats now_iso st =
      some (runStore res cats now_iso st,
        (cats.map res).mergeSort (fun a b => decide (b.score_total ≤ a.score_total))) := by
  have h := calcular_todos_go_total res now_iso cats st []
  simpa [calcular_todos_los_scores] using h

/-- Claim C7 (amended): re-running `calcular_todos_los_scores` for the same date
with unchanged providers and store converges on the `scores` table — every insert
hits the `(categoria, fecha)` uniqueness conflict and the update fallback writes
back identical values, so the second run leaves `scores` row-for-row identical
(and preserves its key uniqueness) and returns the identical result list; but the
append-only `alertas` table is not silent: the second run appends the same green
alert rows again, so "no additional rows in any table" holds only for `scores`. -/
theorem batch_rerun_scores_idempotent (res : String → Resultado) (cats : List String)
    (now_iso : String) (st st1 st2 : Store) (rs1 rs2 : List Resultado)
    (hres : ∀ c, (res c).categoria = c)
    (h1 : calcular_todos_los_scores (fun c => some (res c)) cats now_iso st
      = some (st1, rs1))
    (h2 : calcular_todos_los_scores (fun c => some (res c)) cats now_iso st1
      = some (st2, rs2)) :
    st2.scores = st1.scores ∧ rs2 = rs1 ∧
    st2.alertas = st1.alertas ++ nuevasAlertas res cats now_iso ∧
    ((st.scores.map scoreKey).Nodup → (st1.scores.map scoreKey).Nodup) := by
  rw [calcular_todos_total] at h1 h2
  have e1 := Option.some.inj h1
  have e2 := Option.some.inj h2
  have est1 : runStore res cats now_iso st = st1 := congrArg Prod.fst e1
  have ers1 : (cats.map res).mergeSort
      (fun a b => decide (b.score_total ≤ a.score_total)) = rs1 := congrArg Prod.snd e1
  have est2 : runStore res cats now_iso st1 = st2 := congrArg Prod.fst e2
  have ers2 : (cats.map res).mergeSort
      (fun a b => decide (b.score_total ≤ a.score_total)) = rs2 := congrArg Prod.snd e2
  subst est1 est2
  have hfun : ∀ r1 ∈ cats.map (fun c => scoreRowOf (res c)),
      ∀ r2 ∈ cats.map (fun c => scoreRowOf (res c)),
      scoreKey r1 = scoreKey r2 → r1 = r2 := by
    intro r1 hm1 r2 hm2 hk
    rcases List.mem_map.mp hm1 with ⟨c1, _, h1e⟩
    rcases List.mem_map.mp hm2 with ⟨c2, _, h2e⟩
    subst h1e
    subst h2e
    have hc : c1 = c2 := by
      have := congrArg Prod.fst hk
      simpa [scoreKey, scoreRowOf, hres] using this
    rw [hc]
  refine ⟨?_, ers2 ▸ ers1.symm ▸ rfl, ?_, ?_⟩
  · rw [runStore_scores, runStore_scores]
    exact foldl_upsert_noop _ _
      (fun r hr => foldl_upsert_establishes _ st.scores hfun r hr)
  · exact runStore_alertas res cats now_iso _
  · intro hnd
    rw [runStore_scores]
    exact foldl_upsert_nodup _ _ hnd

/-- Claim C7 witness: the amended theorem applied to a one-category registry with
a yellow-scoring provider and an empty initial store. -/
theorem batch_rerun_scores_idempotent_witness :
    (Store.mk [scoreRowOf (resAmarillo "a")] []).scores
      = (Store.mk [scoreRowOf (resAmarillo "a")] []).scores ∧
    List.mergeSort [resAmarillo "a"] (fun a b => decide (b.score_total ≤ a.score_total))
      = List.mergeSort [resAmarillo "a"] (fun a b => decide (b.score_total ≤ a.score_total)) ∧
    (Store.mk [scoreRowOf (resAmarillo "a")] []).alertas
      = (Store.mk [scoreRowOf (resAmarillo "a")] []).alertas
        ++ nuevasAlertas resAmarillo ["a"] "2026-02-14T08:00:00" ∧
    (((Store.mk [] []).scores.map scoreKey).Nodup →
      (([scoreRowOf (resAmarillo "a")]).map scoreKey).Nodup) :=
  batch_rerun_scores_idempotent resAmarillo ["a"] "2026-02-14T08:00:00"
    ⟨[], []⟩ ⟨[scoreRowOf (resAmarillo "a")], []⟩ ⟨[scoreRowOf (resAmarillo "a")], []⟩
    (List.mergeSort [resAmarillo "a"] (fun a b => decide (b.score_total ≤ a.score_total)))
    (List.mergeSort [resAmarillo "a"] (fun a b => decide (b.score_total ≤ a.score_total)))
    (fun _ => rfl) rfl rfl

/-- Claim C7 counterexample: with a single green-scoring category, the second run
for the same date leaves the `scores` table identical but appends a second,
duplicate alert row — so the claim's "inserts no additional rows in any table"
fails on the `alertas` table.  (The result pair is projected to the two tables so
the statement does not depend on the sort of the returned list.) -/
theorem batch_rerun_alert_duplication :
    Option.map (fun pr => (pr.1.scores, pr.1.alertas))
      (calcular_todos_los_scores (fun c => some (resVerde c)) ["a"]
        "2026-02-14T08:00:00" ⟨[], []⟩)
      = some ([scoreRowOf (resVerde "a")],
          [alertaOf "2026-02-14T08:00:00" (resVerde "a")]) ∧
    Option.map (fun pr => (pr.1.scores, pr.1.alertas))
      (calcular_todos_los_scores (fun c => some (resVerde c)) ["a"]
        "2026-02-14T08:00:00"
        ⟨[scoreRowOf (resVerde "a")], [alertaOf "2026-02-14T08:00:00" (resVerde "a")]⟩)
      = some ([scoreRowOf (resVerde "a")],
          [alertaOf "2026-02-14T08:00:00" (resVerde "a"),
           alertaOf "2026-02-14T08:00:00" (resVerde "a")]) :=
  ⟨rfl, rfl⟩

/-- No handler exists in the batch loop, so a single `none` provider outcome makes
the whole loop return `none`. -/
theorem calcular_todos_go_none (res : String → Option Resultado) (now_iso : String)
    (cats : List String) :
    ∀ (st : Store) (acc : List Resultado),
    (∃ c ∈ cats, res c = none) →
    calcular_todos_los_scores_go res now_iso cats st acc = none := by
  induction cats with
  | nil =>
      intro st acc h
      simp at h
  | cons c0 rest ih =>
      intro st acc h
      rcases h with ⟨c, hmem, hnone⟩
      rcases List.mem_cons.mp hmem with rfl | hmr
      · simp [calcular_todos_los_scores_go, hnone]
      · cases hc : res c0 with
        | none => simp [calcular_todos_los_scores_go, hc]
        | some r =>
            simp only [calcular_todos_los_scores_go, hc]
            exact ih _ _ ⟨c, hmr, hnone⟩

/-- Claim C8 (amended): a raised exception while computing one category's score
aborts the whole batch — there is no per-category handler in
`calcular_todos_los_scores`, the exception propagates, the remaining categories
are not computed, and (the final commit never being reached) nothing is
persisted.  Only the `sqlite3.IntegrityError` of the score insert is caught. -/
theorem batch_aborts_on_provider_failure (res : String → Option Resultado)
    (cats : List String) (now_iso : String) (st : Store)
    (h : ∃ c ∈ cats, res c = none) :
    calcular_todos_los_scores res cats now_iso st = none :=
  calcular_todos_go_none res now_iso cats st [] h

/-- Claim C8 witness: the amended theorem applied to the provider that raises on
category "a". -/
theorem batch_aborts_on_provider_failure_witness :
    calcular_todos_los_scores resFalla ["a"] "2026-02-14T08:00:00" ⟨[], []⟩ = none :=
  batch_aborts_on_provider_failure resFalla ["a"] "2026-02-14T08:00:00" ⟨[], []⟩
    ⟨"a", by simp, rfl⟩

/-- Claim C8 counterexample: category "a" fails while category "b" would compute a
result, yet the batch returns the propagated failure and category "b" is neither
computed nor persisted — the claim's log-and-continue behaviour does not exist in
the code. -/
theorem batch_abort_on_provider_failure_counterexample :
    calcular_todos_los_scores resFalla ["a", "b"] "2026-02-14T08:00:00" ⟨[], []⟩ = none ∧
    resFalla "b" = some (resVerde "b") :=
  ⟨rfl, rfl⟩

/-- Claim C9: whenever `granger_test` is called on series with `len(y)` strictly
below `max_lag + LAG_CONFIG["min_observaciones"]` (reference minimum 15), it
returns the structured insufficient-data dict — explicit error value, empty
results list — for every OLS/cdf primitive; the model being a total function,
no exception is raised. -/
theorem granger_insufficient_data (ols : List ℝ → List ℝ → ℕ → Option (ℝ × ℝ))
    (fcdf : ℝ → ℕ → ℤ → ℝ) (x y : List ℝ) (max_lag : ℕ)
    (h : y.length < max_lag + LAG_CONFIG_min_observaciones) :
    granger_test ols fcdf x y max_lag =
      ⟨some "Insuficientes observaciones", none, none, []⟩ := by
  unfold granger_test
  rw [if_pos h]

/-- Claim C9 witness: the theorem applied to empty series at the configured
Granger sweep depth. -/
theorem granger_insufficient_data_witness :
    granger_test ols0 fcdf0 [] [] LAG_CONFIG_granger_max_lag =
      ⟨some "Insuficientes observaciones", none, none, []⟩ :=
  granger_insufficient_data ols0 fcdf0 [] [] LAG_CONFIG_granger_max_lag
    (by norm_num [LAG_CONFIG_granger_max_lag, LAG_CONFIG_min_observaciones])

/-- The Python `max` fold either keeps the seed or lands on a list element with a
strictly larger key than the seed. -/
theorem pyMaxAbsCorr_strict (t : List XCorrEntry) :
    ∀ h : XCorrEntry, pyMaxAbsCorr h t = h ∨
      (pyMaxAbsCorr h t ∈ t ∧ |h.correlacion| < |(pyMaxAbsCorr h t).correlacion|) := by
  induction t with
  | nil =>
      intro h
      exact Or.inl rfl
  | cons e t' ih =>
      intro h
      by_cases hc : |h.correlacion| < |e.correlacion|
      · have heq : pyMaxAbsCorr h (e :: t') = pyMaxAbsCorr e t' := by
          simp only [pyMaxAbsCorr, List.foldl_cons, if_pos hc]
        rw [heq]
        rcases ih e with he | ⟨hmem, hlt⟩
        · exact Or.inr ⟨by simp [he], by rw [he]; exact hc⟩
        · exact Or.inr ⟨List.mem_cons_of_mem e hmem, lt_trans hc hlt⟩
      · have heq : pyMaxAbsCorr h (e :: t') = pyMaxAbsCorr h t' := by
          simp only [pyMaxAbsCorr, List.foldl_cons, if_neg hc]
        rw [heq]
        rcases ih h with he | ⟨hmem, hlt⟩
        · exact Or.inl he
        · exact Or.inr ⟨List.mem_cons_of_mem e hmem, hlt⟩

/-- The Python `max` fold stays inside the seed-extended list. -/
theorem pyMaxAbsCorr_mem (t : List XCorrEntry) (h : XCorrEntry) :
    pyMaxAbsCorr h t ∈ h :: t := by
  rcases pyMaxAbsCorr_strict t h with he | ⟨hmem, -⟩
  · rw [he]
    exact List.mem_cons_self h t
  · exact List.mem_cons_of_mem h hmem

/-- The Python `max` fold dominates every element of the seed-extended list. -/
theorem pyMaxAbsCorr_le (t : List XCorrEntry) :
    ∀ h : XCorrEntry, ∀ c ∈ h :: t,
      |c.correlacion| ≤ |(pyMaxAbsCorr h t).correlacion| := by
  induction t with
  | nil =>
      intro h c hc
      have hch : c = h := by simpa using hc
      subst hch
      exact le_refl _
  | cons e t' ih =>
      intro h c hc
      by_cases hcmp : |h.correlacion| < |e.correlacion|
      · have heq : pyMaxAbsCorr h (e :: t') = pyMaxAbsCorr e t' := by
          simp only [pyMaxAbsCorr, List.foldl_cons, if_pos hcmp]
        rw [heq]
        rcases List.mem_cons.mp hc with rfl | hc'
        · exact le_trans (le_of_lt hcmp) (ih e e (by simp))
        · exact ih e c hc'
      · have heq : pyMaxAbsCorr h (e :: t') = pyMaxAbsCorr h t' := by
          simp only [pyMaxAbsCorr, List.foldl_cons, if_neg hcmp]
        rw [heq]
        rcases List.mem_cons.mp hc with rfl | hc'
        · exact ih c c (by simp)
        · rcases List.mem_cons.mp hc' with rfl | hc''
          · exact le_trans (not_lt.mp hcmp) (ih h h (by simp))
          · exact ih h c (List.mem_cons_of_mem h hc'')

/-- On a list sorted by strictly increasing lag, the Python `max` fold returns the
first maximum: any element tying its key sits at the same or a later lag. -/
theorem pyMaxAbsCorr_first (t : List XCorrEntry) :
    ∀ h : XCorrEntry, (h :: t).Pairwise (fun a b => a.lag < b.lag) →
      ∀ c ∈ h :: t, |c.correlacion| = |(pyMaxAbsCorr h t).correlacion| →
      (pyMaxAbsCorr h t).lag ≤ c.lag := by
  induction t with
  | nil =>
      intro h _ c hc _
      have hch : c = h := by simpa using hc
      subst hch
      exact le_refl _
  | cons e t' ih =>
      intro h hpw c hc hce
      have hhead : ∀ b ∈ e :: t', h.lag < b.lag := (List.pairwise_cons.mp hpw).1
      have hpw_et : (e :: t').Pairwise (fun a b => a.lag < b.lag) :=
        (List.pairwise_cons.mp hpw).2
      by_cases hcmp : |h.correlacion| < |e.correlacion|
      · have heq : pyMaxAbsCorr h (e :: t') = pyMaxAbsCorr e t' := by
          simp only [pyMaxAbsCorr, List.foldl_cons, if_pos hcmp]
        rw [heq] at hce ⊢
        rcases List.mem_cons.mp hc with rfl | hc'
        · exfalso
          have hle := pyMaxAbsCorr_le t' e e (by simp)
          rw [← hce] at hle
          exact absurd (lt_of_lt_of_le hcmp hle) (lt_irrefl _)
        · exact ih e hpw_et c hc' hce
      · have heq : pyMaxAbsCorr h (e :: t') = pyMaxAbsCorr h t' := by
          simp only [pyMaxAbsCorr, List.foldl_cons, if_neg hcmp]
        rw [heq] at hce ⊢
        have hpw_ht : (h :: t').Pairwise (fun a b => a.lag < b.lag) := by
          rw [List.pairwise_cons]
          exact ⟨fun b hb => hhead b (List.mem_cons_of_mem e hb),
            (List.pairwise_cons.mp hpw_et).2⟩
        rcases List.mem_cons.mp hc with rfl | hc'
        · exact ih c hpw_ht c (by simp) hce
        · rcases List.mem_cons.mp hc' with rfl | hc''
          · rcases pyMaxAbsCorr_strict t' h with hmax | ⟨-, hlt⟩
            · rw [hmax]
              exact le_of_lt (hhead c (by simp))
            · exfalso
              have hle : |c.correlacion| ≤ |h.correlacion| := not_lt.mp hcmp
              rw [hce] at hle
              exact absurd (lt_of_lt_of_le hlt hle) (lt_irrefl _)
          · exact ih h hpw_ht c (List.mem_cons_of_mem h hc'') hce

/-- A per-lag entry records its lag. -/
theorem xcorrEntry_lag (tcdf : ℝ → ℕ → ℝ) (xn yn : List ℝ) (n : ℕ) (lag : ℤ) :
    (xcorrEntry tcdf xn yn n lag).lag = lag := rfl

/-- The swept lags are strictly increasing. -/
theorem xcorrLags_pairwise (m : ℕ) : (xcorrLags m).Pairwise (fun a b => a < b) := by
  unfold xcorrLags
  rw [List.pairwise_map]
  exact (List.pairwise_lt_range _).imp (fun hab => by omega)

/-- The swept entries are in strictly increasing lag order. -/
theorem xcorrEntries_pairwise_lag (tcdf : ℝ → ℕ → ℝ) (x y : List ℝ) (m : ℕ) :
    (xcorrEntries tcdf x y m).Pairwise (fun a b => a.lag < b.lag) := by
  unfold xcorrEntries
  rw [List.pairwise_map]
  exact (xcorrLags_pairwise m).imp
    (fun hab => by simpa only [xcorrEntry_lag] using hab)

/-- Every lag in `[-m, m]` is swept: membership of a given lag value. -/
theorem xcorrEntries_mem (tcdf : ℝ → ℕ → ℝ) (x y : List ℝ) (m : ℕ) (lag : ℤ)
    (h1 : -(m : ℤ) ≤ lag) (h2 : lag ≤ (m : ℤ)) :
    xcorrEntry tcdf (zNorm x) (zNorm y) x.length lag ∈ xcorrEntries tcdf x y m := by
  have harg : (((lag + (m : ℤ)).toNat : ℕ) : ℤ) - (m : ℤ) = lag := by omega
  unfold xcorrEntries xcorrLags
  rw [List.map_map]
  refine List.mem_map.mpr ⟨(lag + (m : ℤ)).toNat, ?_, ?_⟩
  · exact List.mem_range.mpr (by omega)
  · simp only [Function.comp_apply, harg]

/-- When some positive lag was swept, the selected optimum is a positive-lag entry
maximizing |correlation|, ties resolved to the lowest lag. -/
theorem xcorrMejor_pos_spec (entries : List XCorrEntry)
    (hpw : entries.Pairwise (fun a b => a.lag < b.lag))
    (hne : ∃ c ∈ entries, 0 < c.lag) :
    ∃ e ∈ entries, 0 < e.lag ∧ xcorrMejor entries = e ∧
      (∀ c ∈ entries, 0 < c.lag → |c.correlacion| ≤ |e.correlacion|) ∧
      (∀ c ∈ entries, 0 < c.lag → |c.correlacion| = |e.correlacion| → e.lag ≤ c.lag) := by
  rcases hne with ⟨c0, hc0m, hc0p⟩
  have hc0f : c0 ∈ entries.filter (fun c => decide (0 < c.lag)) :=
    List.mem_filter.mpr ⟨hc0m, by simpa using hc0p⟩
  cases hfil : entries.filter (fun c => decide (0 < c.lag)) with
  | nil =>
      rw [hfil] at hc0f
      simp at hc0f
  | cons h t =>
      have hmejor : xcorrMejor entries = pyMaxAbsCorr h t := by
        unfold xcorrMejor
        rw [hfil]
      have hmem : pyMaxAbsCorr h t ∈ h :: t := pyMaxAbsCorr_mem t h
      have hmemf : pyMaxAbsCorr h t ∈ entries.filter (fun c => decide (0 < c.lag)) := by
        rw [hfil]
        exact hmem
      have hpwf : (h :: t).Pairwise (fun a b => a.lag < b.lag) := by
        rw [← hfil]
        exact List.Pairwise.sublist (List.filter_sublist entries) hpw
      refine ⟨pyMaxAbsCorr h t, (List.mem_filter.mp hmemf).1,
        by simpa using (List.mem_filter.mp hmemf).2, hmejor, ?_, ?_⟩
      · intro c hcm hcp
        have hcf : c ∈ h :: t := by
          rw [← hfil]
          exact List.mem_filter.mpr ⟨hcm, by simpa using hcp⟩
        exact pyMaxAbsCorr_le t h c hcf
      · intro c hcm hcp hcorr
        have hcf : c ∈ h :: t := by
          rw [← hfil]
          exact List.mem_filter.mpr ⟨hcm, by simpa using hcp⟩
        exact pyMaxAbsCorr_first t h hpwf c hcf hcorr

/-- When no positive lag was swept, the default `lag 0, correlation 0, p 1` entry
is selected. -/
theorem xcorrMejor_no_pos (entries : List XCorrEntry)
    (h : ∀ c ∈ entries, ¬ 0 < c.lag) :
    xcorrMejor entries = ⟨0, 0, 1, False⟩ := by
  unfold xcorrMejor
  have hfil : entries.filter (fun c => decide (0 < c.lag)) = [] := by
    rw [List.filter_eq_nil_iff]
    intro c hc
    simpa using h c hc
  rw [hfil]

/-- Claim C5: for every pair of equal-length series long enough for analysis
(`n = len(x) ≥ 15`), the optimal entry reported by `cross_correlation` is chosen
only among strictly positive lags as the swept entry maximizing |correlation|,
with ties resolved to the lowest such lag; and when the sweep holds no positive
lags (`max_lags = 0`), the result defaults to lag 0, correlation 0, p-value 1. -/
theorem cross_correlation_optimal_lag_selection (tcdf : ℝ → ℕ → ℝ) (x y : List ℝ)
    (max_lags : ℕ) (hlen : y.length = x.length)
    (hn : LAG_CONFIG_min_observaciones ≤ x.length) :
    ∃ R : XCorrResult, cross_correlation tcdf x y max_lags = XCorrOutcome.ok R ∧
      R.correlaciones = xcorrEntries tcdf x y max_lags ∧
      (max_lags = 0 →
        R.lag_optimo = 0 ∧ R.correlacion_maxima = 0 ∧ R.p_value_optimo = 1) ∧
      (1 ≤ max_lags →
        ∃ e ∈ R.correlaciones, 0 < e.lag ∧
          R.lag_optimo = e.lag ∧ R.correlacion_maxima = e.correlacion ∧
          R.p_value_optimo = e.p_value ∧
          (∀ c ∈ R.correlaciones, 0 < c.lag → |c.correlacion| ≤ |e.correlacion|) ∧
          (∀ c ∈ R.correlaciones, 0 < c.lag →
            |c.correlacion| = |e.correlacion| → e.lag ≤ c.lag)) := by
  have hguard : ¬ (x.length < LAG_CONFIG_min_observaciones) := not_lt.mpr hn
  refine ⟨⟨xcorrEntries tcdf x y max_lags,
    (xcorrMejor (xcorrEntries tcdf x y max_lags)).lag,
    (xcorrMejor (xcorrEntries tcdf x y max_lags)).correlacion,
    (xcorrMejor (xcorrEntries tcdf x y max_lags)).p_value⟩, ?_, rfl, ?_, ?_⟩
  · unfold cross_correlation
    rw [if_neg hguard]
  · rintro rfl
    have hnone : ∀ c ∈ xcorrEntries tcdf x y 0, ¬ 0 < c.lag := by
      intro c hc
      unfold xcorrEntries at hc
      rcases List.mem_map.mp hc with ⟨lag, hlm, rfl⟩
      unfold xcorrLags at hlm
      rcases List.mem_map.mp hlm with ⟨i, hi, rfl⟩
      simp only [List.mem_range] at hi
      have hi0 : i = 0 := by omega
      subst hi0
      simp [xcorrEntry_lag]
    rw [xcorrMejor_no_pos _ hnone]
    exact ⟨rfl, rfl, rfl⟩
  · intro hm
    obtain ⟨e, hmem, hpos, hmejor, hmax, hfirst⟩ :=
      xcorrMejor_pos_spec (xcorrEntries tcdf x y max_lags)
        (xcorrEntries_pairwise_lag tcdf x y max_lags)
        ⟨xcorrEntry tcdf (zNorm x) (zNorm y) x.length 1,
          xcorrEntries_mem tcdf x y max_lags 1 (by omega) (by exact_mod_cast hm),
          by norm_num [xcorrEntry_lag]⟩
    exact ⟨e, hmem, hpos, by rw [hmejor], by rw [hmejor], by rw [hmejor], hmax, hfirst⟩

/-- Claim C5 witness: the theorem applied to two concrete 15-day series at the
configured sweep width 14. -/
theorem cross_correlation_optimal_lag_selection_witness :
    ∃ R : XCorrResult,
      cross_correlation tcdf0 (List.replicate 15 (0 : ℝ)) (List.replicate 15 (0 : ℝ)) 14
        = XCorrOutcome.ok R ∧
      R.correlaciones
        = xcorrEntries tcdf0 (List.replicate 15 (0 : ℝ)) (List.replicate 15 (0 : ℝ)) 14 ∧
      ((14 : ℕ) = 0 →
        R.lag_optimo = 0 ∧ R.correlacion_maxima = 0 ∧ R.p_value_optimo = 1) ∧
      (1 ≤ (14 : ℕ) →
        ∃ e ∈ R.correlaciones, 0 < e.lag ∧
          R.lag_optimo = e.lag ∧ R.correlacion_maxima = e.correlacion ∧
          R.p_value_optimo = e.p_value ∧
          (∀ c ∈ R.correlaciones, 0 < c.lag → |c.correlacion| ≤ |e.correlacion|) ∧
          (∀ c ∈ R.correlaciones, 0 < c.lag →
            |c.correlacion| = |e.correlacion| → e.lag ≤ c.lag)) :=
  cross_correlation_optimal_lag_selection tcdf0 (List.replicate 15 (0 : ℝ))
    (List.replicate 15 (0 : ℝ)) 14 rfl (by simp [LAG_CONFIG_min_observaciones])

/-- The autocovariance sum is a sum of squares, hence nonnegative. -/
theorem sumProd_self_nonneg (l : List ℝ) : 0 ≤ sumProd l l := by
  unfold sumProd
  rw [List.zipWith_same]
  refine List.sum_nonneg ?_
  intro v hv
  rcases List.mem_map.mp hv with ⟨u, -, rfl⟩
  exact mul_self_nonneg u

/-- The autocovariance sum is positive as soon as one entry is nonzero. -/
theorem sumProd_self_pos (l : List ℝ) (hv : ∃ v ∈ l, v ≠ 0) : 0 < sumProd l l := by
  rcases hv with ⟨v, hm, hv0⟩
  unfold sumProd
  rw [List.zipWith_same]
  have hterm : v * v ∈ l.map (fun u => u * u) := List.mem_map.mpr ⟨v, hm, rfl⟩
  have hnn : ∀ w ∈ l.map (fun u => u * u), (0 : ℝ) ≤ w := by
    intro w hw
    rcases List.mem_map.mp hw with ⟨u, -, rfl⟩
    exact mul_self_nonneg u
  exact lt_of_lt_of_le (mul_self_pos.mpr hv0) (List.single_le_sum hnn (v * v) hterm)

/-- Pearson correlation of a series with itself is exactly 1 when some entry is
nonzero (the denominator `sqrt(S·S)` collapses to the positive numerator `S`). -/
theorem corrcoef_self (a : List ℝ) (hv : ∃ v ∈ centrar a, v ≠ 0) :
    corrcoef a a = 1 := by
  unfold corrcoef
  have hpos := sumProd_self_pos (centrar a) hv
  rw [Real.sqrt_mul_self (le_of_lt hpos)]
  exact div_self (ne_of_gt hpos)

/-- Sum of a series shifted and rescaled pointwise. -/
theorem list_sum_map_div (l : List ℝ) (a b : ℝ) :
    (l.map (fun v => (v - a) / b)).sum = (l.sum - l.length * a) / b := by
  induction l with
  | nil => simp
  | cons v l ih =>
      simp only [List.map_cons, List.sum_cons, ih, List.length_cons, List.sum_cons]
      rw [div_add_div_same]
      push_cast
      ring_nf

/-- The z-normalized series has mean 0 (for a nonempty series). -/
theorem npMean_zNorm (x : List ℝ) (hx : x ≠ []) : npMean (zNorm x) = 0 := by
  have hn0 : (x.length : ℝ) ≠ 0 := by
    simpa using hx
  unfold npMean zNorm
  rw [List.length_map, list_sum_map_div]
  have hnum : x.sum - (x.length : ℝ) * npMean x = 0 := by
    unfold npMean
    field_simp
  rw [hnum]
  simp

/-- A series with nonzero population variance has an entry away from its mean. -/
theorem exists_ne_mean (x : List ℝ) (hvar : npVar x ≠ 0) :
    ∃ v ∈ x, v ≠ npMean x := by
  by_contra hall
  push_neg at hall
  apply hvar
  unfold npVar
  have hmap : x.map (fun v => (v - npMean x) ^ 2) = x.map (fun _ => 0) := by
    refine List.map_congr_left ?_
    intro v hv
    rw [hall v hv]
    ring
  rw [hmap]
  unfold npMean
  simp [List.map_const]

/-- The lag-0 entry of the sweep correlates the full normalized series. -/
theorem xcorrCorrAt_zero (xn yn : List ℝ) (n : ℕ) :
    xcorrCorrAt xn yn n 0 = corrcoef xn yn := by
  unfold xcorrCorrAt
  norm_num

/-- The centered z-normalized series keeps a nonzero entry whenever the original
series has nonzero variance. -/
theorem centrar_zNorm_ne_zero (x : List ℝ) (hx : x ≠ []) (hvar : npVar x ≠ 0) :
    ∃ v ∈ centrar (zNorm x), v ≠ 0 := by
  rcases exists_ne_mean x hvar with ⟨v0, hm, hv0⟩
  have hs : 0 < npStd x + 1e-10 := by
    have := Real.sqrt_nonneg (npVar x)
    unfold npStd
    norm_num
    linarith
  refine ⟨(v0 - npMean x) / (npStd x + 1e-10) - npMean (zNorm x), ?_, ?_⟩
  · unfold centrar
    refine List.mem_map.mpr ⟨(v0 - npMean x) / (npStd x + 1e-10), ?_, rfl⟩
    unfold zNorm
    exact List.mem_map.mpr ⟨v0, hm, rfl⟩
  · rw [npMean_zNorm x hx]
    have : (v0 - npMean x) / (npStd x + 1e-10) ≠ 0 :=
      div_ne_zero (sub_ne_zero.mpr hv0) (ne_of_gt hs)
    simpa using this

/-- A per-lag entry records the rounded lag-shifted correlation. -/
theorem xcorrEntry_correlacion (tcdf : ℝ → ℕ → ℝ) (xn yn : List ℝ) (n : ℕ) (lag : ℤ) :
    (xcorrEntry tcdf xn yn n lag).correlacion
      = pyRoundR 4 (xcorrCorrAt xn yn n lag) := rfl

/-- Claim C6 (amended): correlating a sufficiently long series of nonzero
variance with itself, the lag-0 diagnostic entry carries correlation exactly 1
(numpy's ≈1.0), but the reported optimal lag is not 0: the optimum is selected
among strictly positive lags only, so `lag_optimo` is positive. -/
theorem cross_correlation_self_properties (tcdf : ℝ → ℕ → ℝ) (x : List ℝ)
    (hn : LAG_CONFIG_min_observaciones ≤ x.length) (hvar : npVar x ≠ 0) :
    ∃ R : XCorrResult,
      cross_correlation tcdf x x LAG_CONFIG_cross_correlation_lags
        = XCorrOutcome.ok R ∧
      (∃ e ∈ R.correlaciones, e.lag = 0 ∧ e.correlacion = 1) ∧
      0 < R.lag_optimo := by
  have hguard : ¬ (x.length < LAG_CONFIG_min_observaciones) := not_lt.mpr hn
  have hx : x ≠ [] := by
    intro h
    rw [h] at hn
    norm_num [LAG_CONFIG_min_observaciones] at hn
  refine ⟨⟨xcorrEntries tcdf x x LAG_CONFIG_cross_correlation_lags,
    (xcorrMejor (xcorrEntries tcdf x x LAG_CONFIG_cross_correlation_lags)).lag,
    (xcorrMejor (xcorrEntries tcdf x x LAG_CONFIG_cross_correlation_lags)).correlacion,
    (xcorrMejor (xcorrEntries tcdf x x LAG_CONFIG_cross_correlation_lags)).p_value⟩,
    ?_, ?_, ?_⟩
  · unfold cross_correlation
    rw [if_neg hguard]
  · refine ⟨xcorrEntry tcdf (zNorm x) (zNorm x) x.length 0,
      xcorrEntries_mem tcdf x x LAG_CONFIG_cross_correlation_lags 0
        (by norm_num [LAG_CONFIG_cross_correlation_lags])
        (by norm_num [LAG_CONFIG_cross_correlation_lags]),
      rfl, ?_⟩
    rw [xcorrEntry_correlacion, xcorrCorrAt_zero,
      corrcoef_self (zNorm x) (centrar_zNorm_ne_zero x hx hvar)]
    norm_num [pyRoundR]
  · obtain ⟨e, hmem, hpos, hmejor, -, -⟩ :=
      xcorrMejor_pos_spec (xcorrEntries tcdf x x LAG_CONFIG_cross_correlation_lags)
        (xcorrEntries_pairwise_lag tcdf x x LAG_CONFIG_cross_correlation_lags)
        ⟨xcorrEntry tcdf (zNorm x) (zNorm x) x.length 1,
          xcorrEntries_mem tcdf x x LAG_CONFIG_cross_correlation_lags 1
            (by norm_num [LAG_CONFIG_cross_correlation_lags])
            (by norm_num [LAG_CONFIG_cross_correlation_lags]),
          by norm_num [xcorrEntry_lag]⟩
    rw [hmejor]
    exact hpos

/-- Claim C6 witness: the amended theorem applied to the concrete 16-day series. -/
theorem cross_correlation_self_properties_witness :
    ∃ R : XCorrResult,
      cross_correlation tcdf0 serieSelf serieSelf LAG_CONFIG_cross_correlation_lags
        = XCorrOutcome.ok R ∧
      (∃ e ∈ R.correlaciones, e.lag = 0 ∧ e.correlacion = 1) ∧
      0 < R.lag_optimo :=
  cross_correlation_self_properties tcdf0 serieSelf
    (by norm_num [serieSelf, LAG_CONFIG_min_observaciones])
    (by norm_num [npVar, npMean, serieSelf])

/-- Claim C6 counterexample: on the concrete 16-day series of nonzero variance,
`cross_correlation(x, x)` does not report optimal lag 0 — the selection is
restricted to strictly positive lags, so the reported lag is positive. -/
theorem cross_correlation_self_lag_counterexample :
    (15 : ℕ) ≤ serieSelf.length ∧ npVar serieSelf ≠ 0 ∧
    xcorrLagOpt (cross_correlation tcdf0 serieSelf serieSelf
      LAG_CONFIG_cross_correlation_lags) ≠ some 0 := by
  refine ⟨by norm_num [serieSelf], by norm_num [npVar, npMean, serieSelf], ?_⟩
  have hguard : ¬ (serieSelf.length < LAG_CONFIG_min_observaciones) := by
    norm_num [serieSelf, LAG_CONFIG_min_observaciones]
  obtain ⟨e, hmem, hpos, hmejor, -, -⟩ :=
    xcorrMejor_pos_spec (xcorrEntries tcdf0 serieSelf serieSelf
        LAG_CONFIG_cross_correlation_lags)
      (xcorrEntries_pairwise_lag tcdf0 serieSelf serieSelf
        LAG_CONFIG_cross_correlation_lags)
      ⟨xcorrEntry tcdf0 (zNorm serieSelf) (zNorm serieSelf) serieSelf.length 1,
        xcorrEntries_mem tcdf0 serieSelf serieSelf LAG_CONFIG_cross_correlation_lags 1
          (by norm_num [LAG_CONFIG_cross_correlation_lags])
          (by norm_num [LAG_CONFIG_cross_correlation_lags]),
        by norm_num [xcorrEntry_lag]⟩
  have hcc : cross_correlation tcdf0 serieSelf serieSelf LAG_CONFIG_cross_correlation_lags
      = XCorrOutcome.ok ⟨xcorrEntries tcdf0 serieSelf serieSelf
          LAG_CONFIG_cross_correlation_lags,
        (xcorrMejor (xcorrEntries tcdf0 serieSelf serieSelf
          LAG_CONFIG_cross_correlation_lags)).lag,
        (xcorrMejor (xcorrEntries tcdf0 serieSelf serieSelf
          LAG_CONFIG_cross_correlation_lags)).correlacion,
        (xcorrMejor (xcorrEntries tcdf0 serieSelf serieSelf
          LAG_CONFIG_cross_correlation_lags)).p_value⟩ := by
    unfold cross_correlation
    rw [if_neg hguard]
  rw [hcc]
  simp only [xcorrLagOpt, hmejor, ne_eq, Option.some.injEq]
  omega
